import Mathlib

/-!
Verification of the Fleet Route Assignment & Optimization Engine
(src/services/fleet-optimizer/app.py) against its specification.

The Python service is embedded shallowly: the two dataclasses become
structures, the pure methods of FleetOptimizerService become functions
over the real numbers, the per-request mutable state of the Flask app
becomes an explicit state record with one transition per endpoint.
Python floats are modelled as real numbers; `float('inf')` (used only
as the initial best-so-far in the nearest-neighbour scan) is modelled
by an `Option` accumulator whose `none` state accepts any candidate,
exactly as any finite score beats infinity.  A `ZeroDivisionError`
raised by `fuel_level / max_fuel` on a vehicle with `max_fuel = 0` is
the one reachable exception inside the engine; the methods that catch
it and return an error dictionary are modelled with `Except`.
-/

namespace FleetOpt

/-- Dataclass `DeliveryStop` (app.py lines 23-32).  Coordinates, priority and
duration are the numeric payload; the time-window markers are opaque strings,
never interpreted. -/
structure DeliveryStop where
  id : String
  name : String
  latitude : ℝ
  longitude : ℝ
  priority : ℤ
  time_window_start : String
  time_window_end : String
  estimated_duration : ℤ

noncomputable instance : DecidableEq DeliveryStop := Classical.decEq _

/-- Dataclass `Vehicle` (app.py lines 34-42). -/
structure Vehicle where
  id : String
  driver_name : String
  capacity : ℝ
  current_lat : ℝ
  current_lon : ℝ
  fuel_level : ℝ
  max_fuel : ℝ

noncomputable instance : DecidableEq Vehicle := Classical.decEq _

/-- Python `math.radians`. -/
noncomputable def radians (x : ℝ) : ℝ := x * Real.pi / 180

/-- `FleetOptimizerService.calculate_distance` (app.py lines 51-66): the
haversine great-circle distance on a sphere of radius 6371 km. -/
noncomputable def calculate_distance (lat1 lon1 lat2 lon2 : ℝ) : ℝ :=
  6371 * (2 * Real.arcsin (Real.sqrt (
    Real.sin ((radians lat2 - radians lat1) / 2) ^ 2 +
    Real.cos (radians lat1) * Real.cos (radians lat2) *
      Real.sin ((radians lon2 - radians lon1) / 2) ^ 2)))

lemma calculate_distance_symm (lat1 lon1 lat2 lon2 : ℝ) :
    calculate_distance lat1 lon1 lat2 lon2 = calculate_distance lat2 lon2 lat1 lon1 := by
  unfold calculate_distance
  have h1 : ∀ x y : ℝ, Real.sin ((x - y) / 2) ^ 2 = Real.sin ((y - x) / 2) ^ 2 := by
    intro x y
    rw [show (x - y) / 2 = -((y - x) / 2) by ring, Real.sin_neg]
    ring
  rw [h1 (radians lat2), h1 (radians lon2), mul_comm (Real.cos (radians lat1))]

lemma calculate_distance_self (lat lon : ℝ) : calculate_distance lat lon lat lon = 0 := by
  unfold calculate_distance
  simp

/-- On the equator (both latitudes zero) the haversine formula collapses to arc
length along the equator: `6371 * Δlon * π / 180` for `0 ≤ Δlon ≤ 180`. -/
lemma calculate_distance_equator (lon1 lon2 : ℝ) (h0 : lon1 ≤ lon2) (h1 : lon2 - lon1 ≤ 180) :
    calculate_distance 0 lon1 0 lon2 = 6371 * ((lon2 - lon1) * Real.pi / 180) := by
  have hpi := Real.pi_pos
  have h00 : (0 : ℝ) ≤ lon2 - lon1 := by linarith
  have hθ0 : 0 ≤ (lon2 - lon1) * Real.pi / 360 := by positivity
  have hθπ2 : (lon2 - lon1) * Real.pi / 360 ≤ Real.pi / 2 := by
    nlinarith [mul_nonneg (sub_nonneg.mpr h1) hpi.le]
  have hsin : 0 ≤ Real.sin ((lon2 - lon1) * Real.pi / 360) :=
    Real.sin_nonneg_of_nonneg_of_le_pi hθ0 (by linarith)
  have e1 : Real.sin ((radians 0 - radians 0) / 2) ^ 2 = 0 := by simp
  have e2 : Real.cos (radians 0) = 1 := by simp [radians]
  have hrad : (radians lon2 - radians lon1) / 2 = (lon2 - lon1) * Real.pi / 360 := by
    unfold radians; ring
  unfold calculate_distance
  rw [e1, e2, hrad]
  rw [show (0 : ℝ) + 1 * 1 * Real.sin ((lon2 - lon1) * Real.pi / 360) ^ 2 =
    Real.sin ((lon2 - lon1) * Real.pi / 360) ^ 2 by ring]
  rw [Real.sqrt_sq_eq_abs, abs_of_nonneg hsin,
    Real.arcsin_sin (by linarith) hθπ2]
  ring

/-- C9: the distance function is symmetric — for all coordinate pairs `a` and
`b`, `distance(a,b) = distance(b,a)` — and returns exactly 0 when both points
are identical. -/
theorem calculate_distance_symm_and_zero :
    (∀ lat1 lon1 lat2 lon2 : ℝ,
        calculate_distance lat1 lon1 lat2 lon2 = calculate_distance lat2 lon2 lat1 lon1) ∧
    (∀ lat lon : ℝ, calculate_distance lat lon lat lon = 0) :=
  ⟨calculate_distance_symm, calculate_distance_self⟩

/-! ## RouteBuilder: `optimize_route` (app.py lines 68-126) -/

/-- The raw geodesic distance from the current position to a stop
(the `distance` local of the scan loop, app.py lines 88-91). -/
noncomputable def rawDistance (clat clon : ℝ) (stop : DeliveryStop) : ℝ :=
  calculate_distance clat clon stop.latitude stop.longitude

/-- The priority-discounted score (`adjusted_distance`, app.py lines 94-95):
raw distance times `1 - (priority - 1) * 0.1`. -/
noncomputable def adjScore (clat clon : ℝ) (stop : DeliveryStop) : ℝ :=
  rawDistance clat clon stop * (1 - ((stop.priority : ℝ) - 1) * 0.1)

/-- One iteration of the `for stop in unvisited` scan (app.py lines 87-99).
The accumulator holds `(nearest_stop, nearest_distance)`; `none` plays the
role of the initial `nearest_distance = float('inf')`, which any real
adjusted score beats.  Note the source stores the RAW distance of the
accepted stop in `nearest_distance` (line 98) while comparing the next
candidate's ADJUSTED score against it (line 97). -/
noncomputable def selectStep (clat clon : ℝ) (best : Option (DeliveryStop × ℝ))
    (stop : DeliveryStop) : Option (DeliveryStop × ℝ) :=
  match best with
  | none => some (stop, rawDistance clat clon stop)
  | some (b, bd) =>
      if adjScore clat clon stop < bd then some (stop, rawDistance clat clon stop)
      else some (b, bd)

/-- The whole scan over `unvisited` producing `(nearest_stop, nearest_distance)`. -/
noncomputable def selectNearest (clat clon : ℝ) (unvisited : List DeliveryStop) :
    Option (DeliveryStop × ℝ) :=
  unvisited.foldl (selectStep clat clon) none

lemma selectStep_isSome (clat clon : ℝ) (acc : Option (DeliveryStop × ℝ))
    (stop : DeliveryStop) : (selectStep clat clon acc stop).isSome := by
  unfold selectStep
  match acc with
  | none => rfl
  | some (b, bd) => dsimp only; split <;> rfl

lemma foldl_selectStep_some (clat clon : ℝ) (l : List DeliveryStop)
    (p : DeliveryStop × ℝ) :
    (l.foldl (selectStep clat clon) (some p)).isSome := by
  induction l generalizing p with
  | nil => rfl
  | cons a t ih =>
    rw [List.foldl_cons]
    have h := selectStep_isSome clat clon (some p) a
    match hs : selectStep clat clon (some p) a with
    | none => rw [hs] at h; simp at h
    | some q => exact ih q

/-- The scan finds a stop exactly when the remaining set is non-empty
(the `while unvisited` guard together with `if nearest_stop`). -/
lemma selectNearest_eq_none_iff (clat clon : ℝ) (l : List DeliveryStop) :
    selectNearest clat clon l = none ↔ l = [] := by
  constructor
  · intro h
    cases l with
    | nil => rfl
    | cons a t =>
      exfalso
      unfold selectNearest at h
      rw [List.foldl_cons] at h
      have hsome := selectStep_isSome clat clon none a
      match hs : selectStep clat clon none a with
      | none => rw [hs] at hsome; simp at hsome
      | some q =>
        rw [hs] at h
        have := foldl_selectStep_some clat clon t q
        rw [h] at this
        simp at this
  · intro h; subst h; rfl

/-- Scan invariant: a result of the fold is either the initial accumulator
(and then no remaining candidate beat its stored raw distance) or an element
`s` of the scanned list together with its raw distance, such that no stop
scanned after `s` has adjusted score strictly below that raw distance. -/
lemma foldl_selectStep_spec (clat clon : ℝ) :
    ∀ (l : List DeliveryStop) (acc : Option (DeliveryStop × ℝ)) (s : DeliveryStop) (d : ℝ),
      l.foldl (selectStep clat clon) acc = some (s, d) →
      (acc = some (s, d) ∧ ∀ t ∈ l, ¬ adjScore clat clon t < d) ∨
      (∃ l₁ l₂, l = l₁ ++ s :: l₂ ∧ d = rawDistance clat clon s ∧
        ∀ t ∈ l₂, ¬ adjScore clat clon t < d) := by
  intro l
  induction l with
  | nil =>
    intro acc s d h
    exact Or.inl ⟨h, by simp⟩
  | cons a t ih =>
    intro acc s d h
    rw [List.foldl_cons] at h
    rcases ih _ s d h with ⟨hacc, htail⟩ | ⟨l₁, l₂, hsplit, hraw, htail⟩
    · -- the first step already produced the final answer
      rcases acc with - | ⟨b, bd⟩
      · unfold selectStep at hacc
        simp only [Option.some.injEq, Prod.mk.injEq] at hacc
        obtain ⟨h1, h2⟩ := hacc
        subst h1
        exact Or.inr ⟨[], t, by simp, h2.symm, htail⟩
      · unfold selectStep at hacc
        dsimp only at hacc
        by_cases hlt : adjScore clat clon a < bd
        · rw [if_pos hlt] at hacc
          simp only [Option.some.injEq, Prod.mk.injEq] at hacc
          obtain ⟨h1, h2⟩ := hacc
          subst h1
          exact Or.inr ⟨[], t, by simp, h2.symm, htail⟩
        · rw [if_neg hlt] at hacc
          simp only [Option.some.injEq, Prod.mk.injEq] at hacc
          obtain ⟨h1, h2⟩ := hacc
          subst h1
          subst h2
          left
          refine ⟨rfl, ?_⟩
          intro u hu
          rcases List.mem_cons.mp hu with h1 | h1
          · subst h1; exact hlt
          · exact htail u h1
    · exact Or.inr ⟨a :: l₁, l₂, by rw [hsplit]; rfl, hraw, htail⟩

/-- Specification of the scan on a non-empty list: it returns some stop `s`
of the list with its raw distance, and every stop appearing after `s` in
scan order has adjusted score at least that raw distance. -/
lemma selectNearest_spec {clat clon : ℝ} {l : List DeliveryStop}
    {s : DeliveryStop} {d : ℝ} (h : selectNearest clat clon l = some (s, d)) :
    ∃ l₁ l₂, l = l₁ ++ s :: l₂ ∧ d = rawDistance clat clon s ∧
      ∀ t ∈ l₂, ¬ adjScore clat clon t < d := by
  rcases foldl_selectStep_spec clat clon l none s d h with ⟨hacc, _⟩ | hgood
  · simp at hacc
  · exact hgood

lemma selectNearest_mem {clat clon : ℝ} {l : List DeliveryStop}
    {s : DeliveryStop} {d : ℝ} (h : selectNearest clat clon l = some (s, d)) :
    s ∈ l := by
  rcases selectNearest_spec h with ⟨l₁, l₂, hsplit, -, -⟩
  rw [hsplit]
  simp

lemma selectNearest_raw {clat clon : ℝ} {l : List DeliveryStop}
    {s : DeliveryStop} {d : ℝ} (h : selectNearest clat clon l = some (s, d)) :
    d = rawDistance clat clon s := by
  rcases selectNearest_spec h with ⟨-, -, -, hraw, -⟩
  exact hraw

/-- The `while unvisited` loop of `optimize_route` (app.py lines 82-106):
repeatedly pick the scan winner, append it to the route, add its STORED
(raw) distance to the running total, and move the current position to it. -/
noncomputable def routeLoop (clat clon : ℝ) (unvisited route : List DeliveryStop)
    (total : ℝ) : List DeliveryStop × ℝ :=
  match h : selectNearest clat clon unvisited with
  | none => (route, total)
  | some (s, d) =>
      routeLoop s.latitude s.longitude (unvisited.erase s) (route ++ [s]) (total + d)
termination_by unvisited.length
decreasing_by
  have hm : s ∈ unvisited := selectNearest_mem h
  have h1 := List.length_erase_of_mem hm
  have h2 : 0 < unvisited.length := List.length_pos.mpr (List.ne_nil_of_mem hm)
  omega

lemma routeLoop_none {clat clon : ℝ} {unvisited : List DeliveryStop}
    (h : selectNearest clat clon unvisited = none) (route : List DeliveryStop) (total : ℝ) :
    routeLoop clat clon unvisited route total = (route, total) := by
  rw [routeLoop.eq_def, h]

lemma routeLoop_some {clat clon : ℝ} {unvisited : List DeliveryStop}
    {s : DeliveryStop} {d : ℝ} (h : selectNearest clat clon unvisited = some (s, d))
    (route : List DeliveryStop) (total : ℝ) :
    routeLoop clat clon unvisited route total =
      routeLoop s.latitude s.longitude (unvisited.erase s) (route ++ [s]) (total + d) := by
  rw [routeLoop.eq_def, h]

/-- Result record of `optimize_route`; `stops_count` is `route.length` and the
method tag is the constant string in the source, so neither is carried. -/
structure RouteResult where
  route : List DeliveryStop
  total_distance : ℝ
  estimated_time : ℝ

noncomputable instance : DecidableEq RouteResult := Classical.decEq _

/-- Sum of on-site service durations over the visited stops
(`total_service_time`, app.py line 112). -/
def total_service_time (route : List DeliveryStop) : ℤ :=
  (route.map DeliveryStop.estimated_duration).sum

/-- `FleetOptimizerService.optimize_route` (app.py lines 68-126).  Empty input
returns the empty route with zero distance and zero time (line 71-72); the
body never raises, so the `except` branch (lines 124-126) is dead code. -/
noncomputable def optimize_route (stops : List DeliveryStop) (vehicle : Vehicle) :
    RouteResult :=
  if stops = [] then ⟨[], 0, 0⟩
  else
    let r := routeLoop vehicle.current_lat vehicle.current_lon stops [] 0
    ⟨r.1, r.2, r.2 / 40 * 60 + (total_service_time r.1 : ℝ)⟩

/-- Sum of RAW consecutive leg distances of a path visited in order,
starting from the given position.  Defined independently of the loop, to
state what the accumulated `total_distance` amounts to. -/
noncomputable def pathDistance (clat clon : ℝ) : List DeliveryStop → ℝ
  | [] => 0
  | s :: rest => rawDistance clat clon s + pathDistance s.latitude s.longitude rest

lemma selectNearest_nil (clat clon : ℝ) : selectNearest clat clon [] = none := rfl

lemma routeLoop_spec :
    ∀ (n : ℕ) (unvisited : List DeliveryStop), unvisited.length ≤ n →
    ∀ (clat clon : ℝ) (route : List DeliveryStop) (total : ℝ),
      ∃ p, p.Perm unvisited ∧
        routeLoop clat clon unvisited route total =
          (route ++ p, total + pathDistance clat clon p) := by
  intro n
  induction n with
  | zero =>
    intro l hl clat clon route total
    have hnil : l = [] := List.length_eq_zero.mp (Nat.le_zero.mp hl)
    subst hnil
    exact ⟨[], List.Perm.refl _, by rw [routeLoop_none (selectNearest_nil clat clon)]; simp [pathDistance]⟩
  | succ n ih =>
    intro l hl clat clon route total
    match hsel : selectNearest clat clon l with
    | none =>
      have hnil : l = [] := (selectNearest_eq_none_iff clat clon l).mp hsel
      subst hnil
      exact ⟨[], List.Perm.refl _, by rw [routeLoop_none (selectNearest_nil clat clon)]; simp [pathDistance]⟩
    | some (s, d) =>
      have hm : s ∈ l := selectNearest_mem hsel
      have hlen : (l.erase s).length ≤ n := by
        have h1 := List.length_erase_of_mem hm
        have h2 : 0 < l.length := List.length_pos.mpr (List.ne_nil_of_mem hm)
        omega
      obtain ⟨p, hperm, heq⟩ :=
        ih (l.erase s) hlen s.latitude s.longitude (route ++ [s]) (total + d)
      have hd : d = rawDistance clat clon s := selectNearest_raw hsel
      subst hd
      refine ⟨s :: p, (hperm.cons s).trans (List.perm_cons_erase hm).symm, ?_⟩
      rw [routeLoop_some hsel, heq]
      simp only [Prod.mk.injEq, pathDistance]
      constructor
      · simp
      · ring

lemma routeLoop_full (clat clon : ℝ) (stops : List DeliveryStop) :
    ∃ p, p.Perm stops ∧ routeLoop clat clon stops [] 0 = (p, pathDistance clat clon p) := by
  obtain ⟨p, hperm, heq⟩ :=
    routeLoop_spec stops.length stops le_rfl clat clon [] 0
  exact ⟨p, hperm, by simpa using heq⟩

/-- The route visits a permutation of its input stops. -/
lemma optimize_route_perm (stops : List DeliveryStop) (vehicle : Vehicle) :
    (optimize_route stops vehicle).route.Perm stops := by
  by_cases hne : stops = []
  · subst hne; simp [optimize_route]
  · obtain ⟨p, hperm, heq⟩ := routeLoop_full vehicle.current_lat vehicle.current_lon stops
    simp only [optimize_route, if_neg hne, heq]
    exact hperm

/-- The reported total is the sum of raw geodesic leg distances along the
returned visiting order. -/
lemma optimize_route_total (stops : List DeliveryStop) (vehicle : Vehicle) :
    (optimize_route stops vehicle).total_distance =
      pathDistance vehicle.current_lat vehicle.current_lon (optimize_route stops vehicle).route := by
  by_cases hne : stops = []
  · subst hne; simp [optimize_route, pathDistance]
  · obtain ⟨p, hperm, heq⟩ := routeLoop_full vehicle.current_lat vehicle.current_lon stops
    simp only [optimize_route, if_neg hne, heq]

/-! ## AssignmentEngine: `assign_routes` (app.py lines 128-174) -/

/-- Fuel ratio used as the vehicle sort key (line 135). -/
noncomputable def fuelRatio (v : Vehicle) : ℝ := v.fuel_level / v.max_fuel

/-- Stable descending insertion by fuel ratio: a vehicle goes in front of the
first vehicle whose key is not larger, so vehicles with equal keys keep their
submission order — the semantics of Python `sorted(..., reverse=True)`. -/
noncomputable def insertByFuel (v : Vehicle) : List Vehicle → List Vehicle
  | [] => [v]
  | w :: ws => if fuelRatio w ≤ fuelRatio v then v :: w :: ws else w :: insertByFuel v ws

/-- `sorted(vehicles, key=lambda v: v.fuel_level / v.max_fuel, reverse=True)`
(app.py line 135), as a stable sort. -/
noncomputable def sortByFuelDesc : List Vehicle → List Vehicle
  | [] => []
  | v :: vs => insertByFuel v (sortByFuelDesc vs)

lemma insertByFuel_perm (v : Vehicle) (l : List Vehicle) :
    (insertByFuel v l).Perm (v :: l) := by
  induction l with
  | nil => simp [insertByFuel]
  | cons w ws ih =>
    unfold insertByFuel
    split
    · exact List.Perm.refl _
    · exact (ih.cons w).trans (List.Perm.swap v w ws)

lemma sortByFuelDesc_perm (l : List Vehicle) : (sortByFuelDesc l).Perm l := by
  induction l with
  | nil => exact List.Perm.refl _
  | cons v vs ih =>
    exact (insertByFuel_perm v (sortByFuelDesc vs)).trans (ih.cons v)

/-- Collect up to 5 stops of the pool within 50 km of the vehicle's current
position, in pool iteration order (app.py lines 142-151). -/
noncomputable def collectSuitable (v : Vehicle) (pool : List DeliveryStop) :
    List DeliveryStop :=
  pool.foldl (fun acc d =>
    if acc.length < 5 ∧
        calculate_distance v.current_lat v.current_lon d.latitude d.longitude < 50
    then acc ++ [d] else acc) []

/-- The qualifying stops of a pool, in order (the `distance_to_start < 50`
test of line 150, without the 5-stop cap). -/
noncomputable def nearFilter (v : Vehicle) (pool : List DeliveryStop) :
    List DeliveryStop :=
  pool.filter (fun d =>
    decide (calculate_distance v.current_lat v.current_lon d.latitude d.longitude < 50))

lemma collectSuitable_go (v : Vehicle) :
    ∀ (pool : List DeliveryStop) (acc : List DeliveryStop), acc.length ≤ 5 →
      pool.foldl (fun acc d =>
        if acc.length < 5 ∧
            calculate_distance v.current_lat v.current_lon d.latitude d.longitude < 50
        then acc ++ [d] else acc) acc
      = acc ++ (nearFilter v pool).take (5 - acc.length) := by
  intro pool
  induction pool with
  | nil => intro acc hacc; simp [nearFilter]
  | cons d rest ih =>
    intro acc hacc
    rw [List.foldl_cons]
    by_cases hq : calculate_distance v.current_lat v.current_lon d.latitude d.longitude < 50
    · have hfil : nearFilter v (d :: rest) = d :: nearFilter v rest := by
        unfold nearFilter
        rw [List.filter_cons_of_pos (by simpa using hq)]
      by_cases hlen : acc.length < 5
      · rw [if_pos ⟨hlen, hq⟩, ih (acc ++ [d]) (by simp; omega), hfil]
        have htake : (5 - acc.length) = (5 - (acc ++ [d]).length) + 1 := by simp; omega
        rw [htake, List.take_succ_cons]
        simp
      · have h5 : acc.length = 5 := by omega
        rw [if_neg (by rw [not_and_or]; exact Or.inl hlen), ih acc hacc, hfil, h5]
        simp
    · have hfil : nearFilter v (d :: rest) = nearFilter v rest := by
        unfold nearFilter
        rw [List.filter_cons_of_neg (by simpa using hq)]
      rw [if_neg (by rw [not_and_or]; exact Or.inr hq), ih acc hacc, hfil]

/-- `suitable_stops` is the FIRST five qualifying stops in pool iteration
order — take-5 of the in-order filter — not the five closest. -/
lemma collectSuitable_eq (v : Vehicle) (pool : List DeliveryStop) :
    collectSuitable v pool = (nearFilter v pool).take 5 := by
  unfold collectSuitable
  rw [collectSuitable_go v pool [] (by simp)]
  simp

/-- `for stop in suitable_stops: unassigned.remove(stop)` (lines 161-162):
erase the first occurrence of each chosen stop from the pool. -/
noncomputable def removeAll (pool chosen : List DeliveryStop) : List DeliveryStop :=
  chosen.foldl List.erase pool

/-- Result record of `assign_routes` (lines 164-170); the timestamp is not
modelled.  `assignments` is the insertion-ordered dict keyed by vehicle id. -/
structure AssignResult where
  assignments : List (String × RouteResult)
  unassigned_deliveries : List DeliveryStop
  total_vehicles_used : ℕ
  total_deliveries_assigned : ℤ

/-- Python dict assignment `assignments[vehicle.id] = route_result`: replace
in place if the key is present, else append. -/
noncomputable def dictInsert (m : List (String × RouteResult)) (k : String)
    (v : RouteResult) : List (String × RouteResult) :=
  if (m.map Prod.fst).contains k then
    m.map (fun p => if p.1 = k then (k, v) else p)
  else m ++ [(k, v)]

/-- The `for vehicle in available_vehicles` loop of `assign_routes`
(app.py lines 137-162).  `if 'error' not in route_result` (line 157) is
always true in the embedding because `optimize_route` is total. -/
noncomputable def assignLoop : List Vehicle → List DeliveryStop →
    List (String × RouteResult) → List (String × RouteResult) × List DeliveryStop
  | [], unassigned, assignments => (assignments, unassigned)
  | v :: vs, unassigned, assignments =>
      if unassigned = [] then (assignments, unassigned)
      else if collectSuitable v unassigned = [] then assignLoop vs unassigned assignments
      else assignLoop vs (removeAll unassigned (collectSuitable v unassigned))
        (dictInsert assignments v.id (optimize_route (collectSuitable v unassigned) v))

/-- `FleetOptimizerService.assign_routes` (app.py lines 128-174).  The sort
key `v.fuel_level / v.max_fuel` raises `ZeroDivisionError` when some vehicle
has `max_fuel = 0`; the surrounding `try` turns that into an error result
(lines 172-174).  All other paths are total. -/
noncomputable def assign_routes (deliveries : List DeliveryStop)
    (vehicles : List Vehicle) : Except String AssignResult :=
  if vehicles.any (fun v => decide (v.max_fuel = 0)) then
    Except.error ("float division by zero")
  else
    Except.ok
      { assignments := (assignLoop (sortByFuelDesc vehicles) deliveries []).1
        unassigned_deliveries := (assignLoop (sortByFuelDesc vehicles) deliveries []).2
        total_vehicles_used := (assignLoop (sortByFuelDesc vehicles) deliveries []).1.length
        total_deliveries_assigned :=
          (deliveries.length : ℤ) - ((assignLoop (sortByFuelDesc vehicles) deliveries []).2.length : ℤ) }

/-! ## Invariants of the assignment loop -/

/-- All stops appearing in some vehicle's route of an assignment dict. -/
def assignedStops (m : List (String × RouteResult)) : List DeliveryStop :=
  m.flatMap (fun p => p.2.route)

lemma removeAll_sublist : ∀ (chosen pool : List DeliveryStop),
    (removeAll pool chosen).Sublist pool := by
  intro chosen
  induction chosen with
  | nil => intro pool; exact List.Sublist.refl pool
  | cons a t ih =>
    intro pool
    exact (ih (pool.erase a)).trans (List.erase_sublist a pool)

lemma cons_sublist_erase {a : DeliveryStop} : ∀ {t l : List DeliveryStop},
    (a :: t).Sublist l → t.Sublist (l.erase a) := by
  intro t l
  induction l generalizing t with
  | nil => intro h; exact absurd h (by simp)
  | cons b l' ih =>
    intro h
    rw [List.erase_cons]
    cases h with
    | cons _ h' =>
      by_cases hba : b = a
      · subst hba
        simp only [beq_self_eq_true, if_true]
        exact (List.sublist_cons_self b t).trans h'
      · rw [if_neg (by simpa using hba)]
        exact (ih h').cons b
    | cons₂ _ h' =>
      simp only [beq_self_eq_true, if_true]
      exact h'

lemma sublist_removeAll_perm : ∀ (chosen pool : List DeliveryStop),
    chosen.Sublist pool → (chosen ++ removeAll pool chosen).Perm pool := by
  intro chosen
  induction chosen with
  | nil => intro pool _; simp [removeAll]
  | cons a t ih =>
    intro pool hsub
    have ha : a ∈ pool := hsub.subset (List.mem_cons_self a t)
    have ht : t.Sublist (pool.erase a) := cons_sublist_erase hsub
    have hrec : removeAll pool (a :: t) = removeAll (pool.erase a) t := rfl
    rw [hrec, List.cons_append]
    exact ((ih (pool.erase a) ht).cons a).trans (List.perm_cons_erase ha).symm

lemma collectSuitable_sublist (v : Vehicle) (pool : List DeliveryStop) :
    (collectSuitable v pool).Sublist pool := by
  rw [collectSuitable_eq]
  exact ((nearFilter v pool).take_sublist 5).trans (List.filter_sublist pool)

lemma dictInsert_of_not_mem {m : List (String × RouteResult)} {k : String}
    (v : RouteResult) (h : k ∉ m.map Prod.fst) :
    dictInsert m k v = m ++ [(k, v)] := by
  unfold dictInsert
  rw [if_neg (by simpa using h)]

lemma mem_dictInsert {m : List (String × RouteResult)} {k : String}
    {v : RouteResult} {p : String × RouteResult} (h : p ∈ dictInsert m k v) :
    p ∈ m ∨ p = (k, v) := by
  unfold dictInsert at h
  split at h
  · rcases List.mem_map.mp h with ⟨q, hq, hpq⟩
    by_cases hk : q.1 = k
    · rw [if_pos hk] at hpq; exact Or.inr hpq.symm
    · rw [if_neg hk] at hpq; exact Or.inl (hpq ▸ hq)
  · rcases List.mem_append.mp h with h1 | h1
    · exact Or.inl h1
    · exact Or.inr (by simpa using h1)

/-- Multiset bookkeeping of the vehicle loop: provided no vehicle id repeats
(so no dict entry is overwritten), the loop extends the accumulator with new
entries whose routes together with the final pool are a permutation of the
starting pool. -/
lemma assignLoop_partition :
    ∀ (vehs : List Vehicle) (pool : List DeliveryStop)
      (acc : List (String × RouteResult)),
      (vehs.map Vehicle.id).Nodup →
      (∀ k ∈ acc.map Prod.fst, k ∉ vehs.map Vehicle.id) →
      ∃ post, (assignLoop vehs pool acc).1 = acc ++ post ∧
        (assignedStops post ++ (assignLoop vehs pool acc).2).Perm pool := by
  intro vehs
  induction vehs with
  | nil =>
    intro pool acc _ _
    exact ⟨[], by simp [assignLoop], by simp [assignLoop, assignedStops]⟩
  | cons v vs ih =>
    intro pool acc hnodup hdisj
    by_cases hpool : pool = []
    · subst hpool
      refine ⟨[], by simp [assignLoop], by simp [assignLoop, assignedStops]⟩
    · by_cases hsuit : collectSuitable v pool = []
      · have hstep : assignLoop (v :: vs) pool acc = assignLoop vs pool acc := by
          conv_lhs => rw [assignLoop.eq_def]
          dsimp only
          rw [if_neg hpool, if_pos hsuit]
        rw [hstep]
        refine ih pool acc (by simpa using hnodup.of_cons) ?_
        intro k hk
        have := hdisj k hk
        simp only [List.map_cons, List.mem_cons, not_or] at this
        exact this.2
      · have hvid : v.id ∉ acc.map Prod.fst := by
          intro hmem
          have := hdisj v.id hmem
          simp at this
        have hins : dictInsert acc v.id (optimize_route (collectSuitable v pool) v)
            = acc ++ [(v.id, optimize_route (collectSuitable v pool) v)] :=
          dictInsert_of_not_mem _ hvid
        have hstep : assignLoop (v :: vs) pool acc =
            assignLoop vs (removeAll pool (collectSuitable v pool))
              (dictInsert acc v.id (optimize_route (collectSuitable v pool) v)) := by
          conv_lhs => rw [assignLoop.eq_def]
          dsimp only
          rw [if_neg hpool, if_neg hsuit]
        have hnodup' : (vs.map Vehicle.id).Nodup := by simpa using hnodup.of_cons
        have hdisj' : ∀ k ∈ (dictInsert acc v.id
            (optimize_route (collectSuitable v pool) v)).map Prod.fst,
            k ∉ vs.map Vehicle.id := by
          intro k hk
          rw [hins] at hk
          simp only [List.map_append, List.mem_append, List.map_cons, List.map_nil,
            List.mem_singleton] at hk
          rcases hk with hk | hk
          · have := hdisj k hk
            simp only [List.map_cons, List.mem_cons, not_or] at this
            exact this.2
          · simp only [hk]
            have := hnodup
            simp only [List.map_cons, List.nodup_cons] at this
            exact this.1
        obtain ⟨post, hacc, hperm⟩ :=
          ih (removeAll pool (collectSuitable v pool)) _ hnodup' hdisj'
        rw [hins] at hacc hperm
        rw [hstep, hins, hacc]
        refine ⟨(v.id, optimize_route (collectSuitable v pool) v) :: post, by simp, ?_⟩
        have hroute : (optimize_route (collectSuitable v pool) v).route.Perm
            (collectSuitable v pool) := optimize_route_perm _ v
        have hpoolperm : ((collectSuitable v pool) ++
            removeAll pool (collectSuitable v pool)).Perm pool :=
          sublist_removeAll_perm _ pool (collectSuitable_sublist v pool)
        have hflat : assignedStops ((v.id, optimize_route (collectSuitable v pool) v) :: post)
            = (optimize_route (collectSuitable v pool) v).route ++ assignedStops post := by
          simp [assignedStops]
        rw [hflat, List.append_assoc]
        exact (hroute.append hperm).trans hpoolperm

/-- The pool left over after the vehicle loop has processed a prefix of the
vehicle list: the same branch structure as `assignLoop`, carrying only the
pool.  This pins down, per processed vehicle, exactly which pool its
candidate scan ran over. -/
noncomputable def poolAfter : List Vehicle → List DeliveryStop → List DeliveryStop
  | [], pool => pool
  | v :: vs, pool =>
      if pool = [] then pool
      else if collectSuitable v pool = [] then poolAfter vs pool
      else poolAfter vs (removeAll pool (collectSuitable v pool))

lemma poolAfter_sublist : ∀ (vehs : List Vehicle) (pool : List DeliveryStop),
    (poolAfter vehs pool).Sublist pool := by
  intro vehs
  induction vehs with
  | nil => intro pool; exact List.Sublist.refl pool
  | cons v vs ih =>
    intro pool
    simp only [poolAfter]
    split
    · exact List.Sublist.refl pool
    · split
      · exact ih pool
      · exact (ih _).trans (removeAll_sublist _ pool)

/-- Every entry the assignment loop adds comes from the vehicle at some
position `i` of the vehicle list, and its routed stops are
`collectSuitable` of the EXACT pool the loop held when that vehicle was
processed — `poolAfter` of the preceding prefix. -/
lemma assignLoop_entries_indexed :
    ∀ (vehs : List Vehicle) (pool : List DeliveryStop)
      (acc : List (String × RouteResult)),
      ∀ p ∈ (assignLoop vehs pool acc).1,
        p ∈ acc ∨
        ∃ i v, vehs.get? i = some v ∧ v.id = p.1 ∧
          collectSuitable v (poolAfter (vehs.take i) pool) ≠ [] ∧
          p.2 = optimize_route (collectSuitable v (poolAfter (vehs.take i) pool)) v := by
  intro vehs
  induction vehs with
  | nil =>
    intro pool acc p hp
    exact Or.inl (by simpa [assignLoop] using hp)
  | cons v vs ih =>
    intro pool acc p hp
    by_cases hpe : pool = []
    · left
      subst hpe
      simpa [assignLoop] using hp
    · by_cases hsuit : collectSuitable v pool = []
      · have hstep : assignLoop (v :: vs) pool acc = assignLoop vs pool acc := by
          conv_lhs => rw [assignLoop.eq_def]
          dsimp only
          rw [if_neg hpe, if_pos hsuit]
        rw [hstep] at hp
        rcases ih pool acc p hp with h | ⟨i, w, hget, hid, hne, heq⟩
        · exact Or.inl h
        · have hpa : poolAfter ((v :: vs).take (i + 1)) pool
              = poolAfter (vs.take i) pool := by
            rw [List.take_succ_cons]
            simp only [poolAfter]
            rw [if_neg hpe, if_pos hsuit]
          exact Or.inr ⟨i + 1, w, by simpa using hget, hid,
            by rw [hpa]; exact hne, by rw [hpa]; exact heq⟩
      · have hstep : assignLoop (v :: vs) pool acc =
            assignLoop vs (removeAll pool (collectSuitable v pool))
              (dictInsert acc v.id (optimize_route (collectSuitable v pool) v)) := by
          conv_lhs => rw [assignLoop.eq_def]
          dsimp only
          rw [if_neg hpe, if_neg hsuit]
        rw [hstep] at hp
        rcases ih _ _ p hp with h | ⟨i, w, hget, hid, hne, heq⟩
        · rcases mem_dictInsert h with h1 | h1
          · exact Or.inl h1
          · subst h1
            exact Or.inr ⟨0, v, rfl, rfl, hsuit, rfl⟩
        · have hpa : poolAfter ((v :: vs).take (i + 1)) pool
              = poolAfter (vs.take i) (removeAll pool (collectSuitable v pool)) := by
            rw [List.take_succ_cons]
            simp only [poolAfter]
            rw [if_neg hpe, if_neg hsuit]
          exact Or.inr ⟨i + 1, w, by simpa using hget, hid,
            by rw [hpa]; exact hne, by rw [hpa]; exact heq⟩

lemma assign_routes_ok {deliveries : List DeliveryStop} {vehicles : List Vehicle}
    {r : AssignResult} (h : assign_routes deliveries vehicles = Except.ok r) :
    r.assignments = (assignLoop (sortByFuelDesc vehicles) deliveries []).1 ∧
    r.unassigned_deliveries = (assignLoop (sortByFuelDesc vehicles) deliveries []).2 ∧
    r.total_vehicles_used = (assignLoop (sortByFuelDesc vehicles) deliveries []).1.length ∧
    r.total_deliveries_assigned = (deliveries.length : ℤ) -
      ((assignLoop (sortByFuelDesc vehicles) deliveries []).2.length : ℤ) := by
  unfold assign_routes at h
  split at h
  · exact absurd h (by simp)
  · injection h with h
    subst h
    exact ⟨rfl, rfl, rfl, rfl⟩

lemma pairwise_of_assignedStops_nodup {m : List (String × RouteResult)}
    (h : (assignedStops m).Nodup) :
    List.Pairwise (fun p q => ∀ s ∈ p.2.route, s ∉ q.2.route) m := by
  induction m with
  | nil => exact List.Pairwise.nil
  | cons p rest ih =>
    have h' : (p.2.route ++ assignedStops rest).Nodup := by
      simpa [assignedStops] using h
    rw [List.nodup_append] at h'
    refine List.Pairwise.cons ?_ (ih h'.2.1)
    intro q hq s hs hsq
    exact h'.2.2 hs (List.mem_flatMap.mpr ⟨q, hq, hsq⟩)

/-- C2 as amended: on delivery lists without duplicate stops and vehicle
lists with pairwise-distinct ids, every completed run of `assign_routes`
partitions the submitted deliveries — the stops of all returned routes
together with the unassigned list are a permutation of the delivery list,
no assigned stop is unassigned, and no stop lies in two vehicles' routes. -/
theorem assign_routes_partition (deliveries : List DeliveryStop)
    (vehicles : List Vehicle) (r : AssignResult)
    (hdel : deliveries.Nodup) (hids : (vehicles.map Vehicle.id).Nodup)
    (hok : assign_routes deliveries vehicles = Except.ok r) :
    (assignedStops r.assignments ++ r.unassigned_deliveries).Perm deliveries ∧
    (∀ s ∈ assignedStops r.assignments, s ∉ r.unassigned_deliveries) ∧
    List.Pairwise (fun p q => ∀ s ∈ p.2.route, s ∉ q.2.route) r.assignments := by
  obtain ⟨ha, hu, -, -⟩ := assign_routes_ok hok
  have hsortids : ((sortByFuelDesc vehicles).map Vehicle.id).Nodup :=
    (((sortByFuelDesc_perm vehicles).map Vehicle.id).nodup_iff).mpr hids
  obtain ⟨post, hpost, hperm⟩ :=
    assignLoop_partition (sortByFuelDesc vehicles) deliveries [] hsortids (by simp)
  rw [List.nil_append] at hpost
  rw [ha, hu, hpost]
  have hnodup2 : (assignedStops post ++
      (assignLoop (sortByFuelDesc vehicles) deliveries []).2).Nodup :=
    hperm.nodup_iff.mpr hdel
  rw [List.nodup_append] at hnodup2
  exact ⟨hperm, fun s hs => hnodup2.2.2 hs,
    pairwise_of_assignedStops_nodup hnodup2.1⟩

/-- C3: in every completed run, each returned assignment belongs to the
vehicle at some position `i` of the processing order (a submitted vehicle,
keyed by its id), its route has at most 5 stops, every stop of the route
lies strictly within 50 km of that vehicle's starting position, and the
stops handed to the route builder are EXACTLY take-5 of the in-order
distance filter over the pool the loop actually held when that vehicle was
processed (`poolAfter` of the preceding vehicle prefix, an in-order
subsequence of the submitted deliveries) — the first up-to-5 qualifying
stops in pool iteration order, not the 5 closest. -/
theorem assign_routes_candidate_selection (deliveries : List DeliveryStop)
    (vehicles : List Vehicle) (r : AssignResult)
    (hok : assign_routes deliveries vehicles = Except.ok r) :
    ∀ p ∈ r.assignments,
      p.2.route.length ≤ 5 ∧
      ∃ i v, (sortByFuelDesc vehicles).get? i = some v ∧ v ∈ vehicles ∧
        v.id = p.1 ∧
        (poolAfter ((sortByFuelDesc vehicles).take i) deliveries).Sublist deliveries ∧
        p.2 = optimize_route
          ((nearFilter v
            (poolAfter ((sortByFuelDesc vehicles).take i) deliveries)).take 5) v ∧
        ∀ s ∈ p.2.route,
          calculate_distance v.current_lat v.current_lon s.latitude s.longitude < 50 := by
  obtain ⟨ha, -, -, -⟩ := assign_routes_ok hok
  intro p hp
  rw [ha] at hp
  rcases assignLoop_entries_indexed (sortByFuelDesc vehicles) deliveries [] p hp with
    h | ⟨i, v, hget, hid, -, heq⟩
  · exact absurd h (List.not_mem_nil p)
  · have hmem : v ∈ vehicles :=
      (sortByFuelDesc_perm vehicles).subset (List.get?_mem hget)
    have heq5 : p.2 = optimize_route
        ((nearFilter v (poolAfter ((sortByFuelDesc vehicles).take i) deliveries)).take 5)
        v := by
      rw [heq, collectSuitable_eq]
    have hperm5 : p.2.route.Perm
        ((nearFilter v (poolAfter ((sortByFuelDesc vehicles).take i) deliveries)).take 5) := by
      rw [heq5]
      exact optimize_route_perm _ v
    refine ⟨?_, i, v, hget, hmem, hid, poolAfter_sublist _ _, heq5, ?_⟩
    · rw [hperm5.length_eq, List.length_take]
      exact min_le_left _ _
    · intro s hs
      have h5 := hperm5.subset hs
      have hfil := List.take_subset 5 _ h5
      exact of_decide_eq_true (List.mem_filter.mp hfil).2

/-- C1 as amended: the scan's chosen stop is the survivor of a left-to-right
pass in which a candidate replaces the incumbent exactly when its ADJUSTED
score is strictly below the incumbent's stored RAW distance; hence every stop
scanned after the chosen one has adjusted score at least the chosen stop's
raw distance (the chosen stop need not minimise the adjusted score among all
remaining stops).  What is accumulated per step is the chosen stop's raw
geodesic distance: the reported total is the sum of the raw leg distances
along the returned visiting order, which is a permutation of the input. -/
theorem optimize_route_scan_characterisation (stops : List DeliveryStop)
    (vehicle : Vehicle) (hne : stops ≠ []) :
    (optimize_route stops vehicle).route.Perm stops ∧
    (optimize_route stops vehicle).total_distance =
      pathDistance vehicle.current_lat vehicle.current_lon
        (optimize_route stops vehicle).route ∧
    ∀ s d, selectNearest vehicle.current_lat vehicle.current_lon stops = some (s, d) →
      (optimize_route stops vehicle).route.head? = some s ∧
      d = rawDistance vehicle.current_lat vehicle.current_lon s ∧
      ∃ l₁ l₂, stops = l₁ ++ s :: l₂ ∧
        ∀ t ∈ l₂, d ≤ adjScore vehicle.current_lat vehicle.current_lon t := by
  refine ⟨optimize_route_perm stops vehicle, optimize_route_total stops vehicle, ?_⟩
  intro s d hsel
  obtain ⟨l₁, l₂, hsplit, hraw, htail⟩ := selectNearest_spec hsel
  refine ⟨?_, hraw, l₁, l₂, hsplit, fun t ht => not_lt.mp (htail t ht)⟩
  have hstep := routeLoop_some hsel ([] : List DeliveryStop) 0
  obtain ⟨p, hperm, heq⟩ := routeLoop_spec (stops.erase s).length (stops.erase s) le_rfl
    s.latitude s.longitude ([] ++ [s]) (0 + d)
  simp only [optimize_route, if_neg hne, hstep, heq]
  simp

/-! ## FuelFeasibilityEvaluator: `calculate_fuel_efficiency` (app.py lines 176-199) -/

/-- The record returned by `calculate_fuel_efficiency` (lines 186-195). -/
structure FuelFeasibility where
  vehicle_id : String
  route_distance : ℝ
  estimated_fuel_consumption : ℝ
  current_fuel_level : ℝ
  max_fuel : ℝ
  fuel_deficit : ℝ
  fuel_percentage : ℝ
  needs_refuel : Bool

/-- `FleetOptimizerService.calculate_fuel_efficiency` (app.py lines 176-199):
consumption at the fixed rate 0.08 L/km, deficit clipped at zero, refuel flag
at a 5 L deficit.  The `fuel_percentage` field divides by `max_fuel`, so a
vehicle with `max_fuel = 0` raises `ZeroDivisionError`, caught by the method
as an error dictionary. -/
noncomputable def calculate_fuel_efficiency (vehicle : Vehicle)
    (route_distance : ℝ) : Except String FuelFeasibility :=
  if vehicle.max_fuel = 0 then Except.error ("float division by zero")
  else Except.ok
    { vehicle_id := vehicle.id
      route_distance := route_distance
      estimated_fuel_consumption := route_distance * 0.08
      current_fuel_level := vehicle.fuel_level
      max_fuel := vehicle.max_fuel
      fuel_deficit := max 0 (route_distance * 0.08 - vehicle.fuel_level)
      fuel_percentage := vehicle.fuel_level / vehicle.max_fuel * 100
      needs_refuel := decide (5 < max 0 (route_distance * 0.08 - vehicle.fuel_level)) }

/-- C7 as amended: for every vehicle whose `max_fuel` is non-zero and every
non-negative route distance, the evaluator returns consumption
`distance * 0.08`, deficit `max 0 (consumption - fuel_level)`, a refuel flag
that is set iff the deficit exceeds 5, and the deficit is non-decreasing in
the route distance at fixed fuel level.  (A vehicle with `max_fuel = 0`
instead gets the caught-error dictionary — see the counterexample.) -/
theorem calculate_fuel_efficiency_spec (vehicle : Vehicle) (d : ℝ)
    (h0 : 0 ≤ d) (hm : vehicle.max_fuel ≠ 0) :
    ∃ f, calculate_fuel_efficiency vehicle d = Except.ok f ∧
      f.estimated_fuel_consumption = d * 0.08 ∧
      f.fuel_deficit = max 0 (d * 0.08 - vehicle.fuel_level) ∧
      (f.needs_refuel = true ↔ 5 < f.fuel_deficit) ∧
      ∀ d' f', d ≤ d' → calculate_fuel_efficiency vehicle d' = Except.ok f' →
        f.fuel_deficit ≤ f'.fuel_deficit := by
  unfold calculate_fuel_efficiency
  rw [if_neg hm]
  refine ⟨_, rfl, rfl, rfl, by simp, ?_⟩
  intro d' f' hdd hok'
  rw [if_neg hm] at hok'
  injection hok' with hok'
  rw [← hok']
  exact max_le_max le_rfl (by linarith)

/-! ## RecommendationEngine: `get_optimization_recommendations`
(app.py lines 201-247) -/

/-- A ledger entry (the dict built at lines 305-312).  The uuid and the
timestamp string are opaque and not inspected by any reader. -/
structure OptimizationRun where
  run_id : String
  total_deliveries : ℕ
  total_vehicles : ℕ
  assignments_made : ℤ
  efficiency_score : ℝ

/-- A recommendation entry (lines 210-241).  The free-text `message` and
`recommendation` fields are informational and not modelled. -/
structure Recommendation where
  rtype : String
  vehicle_id : Option String
  driver_name : Option String
  fuel_percentage : Option ℝ
  priority : String

/-- The per-vehicle branch of the recommendation loop (lines 207-228). -/
noncomputable def vehicleRecommendation (v : Vehicle) : List Recommendation :=
  if v.fuel_level / v.max_fuel * 100 < 20 then
    [{ rtype := "fuel_alert", vehicle_id := some v.id,
       driver_name := some v.driver_name,
       fuel_percentage := some (v.fuel_level / v.max_fuel * 100),
       priority := "high" }]
  else if v.fuel_level / v.max_fuel * 100 < 40 then
    [{ rtype := "fuel_warning", vehicle_id := some v.id,
       driver_name := some v.driver_name,
       fuel_percentage := some (v.fuel_level / v.max_fuel * 100),
       priority := "medium" }]
  else []

/-- `self.optimization_history[-5:]` (line 232).  For a history longer than
five entries — the only context in which it is read — this is the five most
recent records. -/
def recentFive (history : List OptimizationRun) : List OptimizationRun :=
  history.drop (history.length - 5)

/-- `avg_efficiency` (line 233). -/
noncomputable def avgEfficiency (history : List OptimizationRun) : ℝ :=
  ((recentFive history).map OptimizationRun.efficiency_score).sum /
    ((recentFive history).length : ℝ)

/-- The ledger-derived branch (lines 231-241): only when the ledger holds
STRICTLY more than five entries and the mean recent efficiency is below 0.7. -/
noncomputable def efficiencyRecommendation (history : List OptimizationRun) :
    List Recommendation :=
  if 5 < history.length then
    if avgEfficiency history < 0.7 then
      [{ rtype := "efficiency_improvement", vehicle_id := none,
         driver_name := none, fuel_percentage := none, priority := "medium" }]
    else []
  else []

/-- `FleetOptimizerService.get_optimization_recommendations` (lines 201-247):
vehicle alerts in iteration order, then the ledger-derived entry.  A vehicle
with `max_fuel = 0` raises `ZeroDivisionError` inside the loop; the blanket
`except` (lines 245-247) then returns the empty list. -/
noncomputable def get_optimization_recommendations (vehicles : List Vehicle)
    (history : List OptimizationRun) : List Recommendation :=
  if vehicles.any (fun v => decide (v.max_fuel = 0)) then []
  else vehicles.flatMap vehicleRecommendation ++ efficiencyRecommendation history

/-- C8 as amended: for every fleet state in which EVERY vehicle has a
non-zero tank capacity, the output is the vehicle-level recommendations in
vehicle iteration order followed only by a possible ledger-derived entry,
and per vehicle one `fuel_alert` is emitted iff ratio < 20, one
`fuel_warning` iff 20 ≤ ratio < 40, and nothing iff ratio ≥ 40.  (One
zero-capacity vehicle silences the whole output — see the
counterexample.) -/
theorem recommendations_fuel_thresholds (vehicles : List Vehicle)
    (history : List OptimizationRun)
    (hm : ∀ v ∈ vehicles, v.max_fuel ≠ 0) :
    (∃ tail, get_optimization_recommendations vehicles history =
        vehicles.flatMap vehicleRecommendation ++ tail ∧
        ∀ rc ∈ tail, rc.rtype = "efficiency_improvement") ∧
    ∀ v ∈ vehicles,
      ((vehicleRecommendation v).map Recommendation.rtype = ["fuel_alert"] ↔
        v.fuel_level / v.max_fuel * 100 < 20) ∧
      ((vehicleRecommendation v).map Recommendation.rtype = ["fuel_warning"] ↔
        20 ≤ v.fuel_level / v.max_fuel * 100 ∧ v.fuel_level / v.max_fuel * 100 < 40) ∧
      ((vehicleRecommendation v).map Recommendation.rtype = [] ↔
        40 ≤ v.fuel_level / v.max_fuel * 100) := by
  have hguard : vehicles.any (fun v => decide (v.max_fuel = 0)) = false := by
    rw [List.any_eq_false]
    intro v hv
    simpa using hm v hv
  constructor
  · refine ⟨efficiencyRecommendation history, ?_, ?_⟩
    · unfold get_optimization_recommendations
      rw [hguard]
      simp
    · intro rc hrc
      unfold efficiencyRecommendation at hrc
      split at hrc
      · split at hrc
        · rw [List.mem_singleton] at hrc
          rw [hrc]
        · simp at hrc
      · simp at hrc
  · intro v hv
    unfold vehicleRecommendation
    by_cases h20 : v.fuel_level / v.max_fuel * 100 < 20
    · rw [if_pos h20]
      refine ⟨⟨fun _ => h20, fun _ => rfl⟩, ⟨?_, ?_⟩, ⟨?_, ?_⟩⟩
      · intro hmap; simp at hmap
      · intro hr; exact absurd h20 (by exfalso; linarith [hr.1])
      · intro hmap; simp at hmap
      · intro hge; exact absurd h20 (by exfalso; linarith)
    · rw [if_neg h20]
      by_cases h40 : v.fuel_level / v.max_fuel * 100 < 40
      · rw [if_pos h40]
        refine ⟨⟨?_, ?_⟩, ⟨fun _ => ⟨not_lt.mp h20, h40⟩, fun _ => rfl⟩, ⟨?_, ?_⟩⟩
        · intro hmap; simp at hmap
        · intro hlt; exact absurd hlt h20
        · intro hmap; simp at hmap
        · intro hge; exact absurd h40 (by exfalso; linarith)
      · rw [if_neg h40]
        refine ⟨⟨?_, ?_⟩, ⟨?_, ?_⟩, ⟨fun _ => not_lt.mp h40, fun _ => rfl⟩⟩
        · intro hmap; simp at hmap
        · intro hlt; exact absurd hlt h20
        · intro hmap; simp at hmap
        · intro hr; exact absurd hr.2 h40

/-! ## Endpoint layer: service state and the /optimize transition
(app.py lines 249-319) -/

/-- The mutable attributes of the process-wide `FleetOptimizerService`
singleton (lines 44-49 and 250). -/
structure ServiceState where
  vehicles : List Vehicle
  routes : List RouteResult
  deliveries : List DeliveryStop
  optimization_history : List OptimizationRun

/-- `FleetOptimizerService()` — all four lists start empty. -/
def initState : ServiceState := ⟨[], [], [], []⟩

/-- The history record built by the /optimize endpoint (lines 305-312).
`result.get('total_deliveries_assigned', 0)` falls back to 0 when
`assign_routes` returned its caught-error dictionary. -/
noncomputable def mkOptimizationRecord (nDeliveries nVehicles : ℕ)
    (result : Except String AssignResult) : OptimizationRun :=
  { run_id := "uuid4"
    total_deliveries := nDeliveries
    total_vehicles := nVehicles
    assignments_made :=
      match result with
      | Except.ok r => r.total_deliveries_assigned
      | Except.error _ => 0
    efficiency_score :=
      (match result with
      | Except.ok r => (r.total_deliveries_assigned : ℝ)
      | Except.error _ => 0) / ((max 1 nDeliveries : ℕ) : ℝ) }

/-- The state effect of the /optimize endpoint after parsing (lines
301-313): run the assignment, then append one history record
UNCONDITIONALLY — also when the run result is the caught-error dictionary. -/
noncomputable def optimize_routes_step (st : ServiceState)
    (deliveries : List DeliveryStop) (vehicles : List Vehicle) :
    ServiceState × Except String AssignResult :=
  ({ st with optimization_history := st.optimization_history ++
      [mkOptimizationRecord deliveries.length vehicles.length
        (assign_routes deliveries vehicles)] },
   assign_routes deliveries vehicles)

/-- The service's HTTP surface (lines 252-385).  Only /optimize writes any
state; /health, /fuel-efficiency, /recommendations and /history read only. -/
inductive ApiCall where
  | optimize (deliveries : List DeliveryStop) (vehicles : List Vehicle)
  | fuel_efficiency (vehicle : Vehicle) (route_distance : ℝ)
  | recommendations
  | history (limit : ℕ)
  | health

noncomputable def applyCall (st : ServiceState) : ApiCall → ServiceState
  | ApiCall.optimize dels vehs => (optimize_routes_step st dels vehs).1
  | ApiCall.fuel_efficiency _ _ => st
  | ApiCall.recommendations => st
  | ApiCall.history _ => st
  | ApiCall.health => st

/-- C6 as amended: every /optimize invocation that reaches the assignment
stage appends exactly one record to the history — ALSO when `assign_routes`
reports its caught internal failure, in which case the appended record
counts zero assignments and zero efficiency.  The ledger is thus never
partially updated, but it is not left unchanged on failure either. -/
theorem optimize_always_appends (st : ServiceState)
    (deliveries : List DeliveryStop) (vehicles : List Vehicle) :
    (optimize_routes_step st deliveries vehicles).1.optimization_history =
      st.optimization_history ++
        [mkOptimizationRecord deliveries.length vehicles.length
          (assign_routes deliveries vehicles)] ∧
    ∀ e, assign_routes deliveries vehicles = Except.error e →
      (mkOptimizationRecord deliveries.length vehicles.length
        (assign_routes deliveries vehicles)).assignments_made = 0 ∧
      (mkOptimizationRecord deliveries.length vehicles.length
        (assign_routes deliveries vehicles)).efficiency_score = 0 := by
  refine ⟨rfl, ?_⟩
  intro e he
  rw [he]
  unfold mkOptimizationRecord
  exact ⟨rfl, by simp⟩

/-- C10: `self.vehicles` starts empty and no endpoint ever writes it, so
after any sequence of API calls the recommendation list contains no
`fuel_alert` and no `fuel_warning` entry. -/
theorem no_fuel_recommendations_reachable (calls : List ApiCall) :
    (calls.foldl applyCall initState).vehicles = [] ∧
    ((get_optimization_recommendations (calls.foldl applyCall initState).vehicles
        (calls.foldl applyCall initState).optimization_history).map
      Recommendation.rtype).all
        (fun t => !(t == "fuel_alert") && !(t == "fuel_warning")) = true := by
  have hveh : ∀ (cs : List ApiCall) (st : ServiceState),
      (cs.foldl applyCall st).vehicles = st.vehicles := by
    intro cs
    induction cs with
    | nil => intro st; rfl
    | cons c cs ih =>
      intro st
      rw [List.foldl_cons, ih]
      cases c <;> rfl
  have h1 : (calls.foldl applyCall initState).vehicles = [] := hveh calls initState
  refine ⟨h1, ?_⟩
  rw [h1]
  unfold get_optimization_recommendations
  rw [if_neg (by simp)]
  unfold efficiencyRecommendation
  split
  · split
    · simp
    · simp
  · simp

/-! ## Concrete runs

Equatorial coordinates make the haversine distance exactly
`6371 * Δlon * π / 180` km, so the branch conditions of the loops can be
settled with π-bounds. -/

/-- Vehicle at the origin, 50/60 fuel — the Scenario B vehicle. -/
noncomputable def scenVehicle : Vehicle := ⟨"veh-b", "Unknown", 1000, 0, 0, 50, 60⟩

/-- Scenario B delivery at (0, 1), priority 1, duration 10. -/
noncomputable def scenStop1 : DeliveryStop :=
  ⟨"d-1", "Delivery Point", 0, 1, 1, "09:00", "17:00", 10⟩

/-- Scenario B delivery at (0, 2), priority 5, duration 10. -/
noncomputable def scenStop2 : DeliveryStop :=
  ⟨"d-2", "Delivery Point", 0, 2, 5, "09:00", "17:00", 10⟩

/-- Stop at (0, 8), priority 1: the stop the broken scan picks first. -/
noncomputable def cexStopA : DeliveryStop :=
  ⟨"stop-a", "A", 0, 8, 1, "09:00", "17:00", 10⟩

/-- Stop at (0, 10), priority 5: the stop with the least adjusted score. -/
noncomputable def cexStopB : DeliveryStop :=
  ⟨"stop-b", "B", 0, 10, 5, "09:00", "17:00", 10⟩

lemma dist_0_8 : calculate_distance 0 0 0 8 = 6371 * (8 * Real.pi / 180) := by
  simpa using calculate_distance_equator 0 8 (by norm_num) (by norm_num)

lemma dist_0_10 : calculate_distance 0 0 0 10 = 6371 * (10 * Real.pi / 180) := by
  simpa using calculate_distance_equator 0 10 (by norm_num) (by norm_num)

lemma dist_8_10 : calculate_distance 0 8 0 10 = 6371 * (2 * Real.pi / 180) := by
  have h := calculate_distance_equator 8 10 (by norm_num) (by norm_num)
  rw [h]
  norm_num

lemma cex_adjA : adjScore 0 0 cexStopA = 6371 * (8 * Real.pi / 180) := by
  simp only [adjScore, rawDistance, cexStopA]
  rw [dist_0_8]
  push_cast
  ring

lemma cex_adjB : adjScore 0 0 cexStopB = 6371 * (10 * Real.pi / 180) * 0.6 := by
  simp only [adjScore, rawDistance, cexStopB]
  rw [dist_0_10]
  push_cast
  norm_num

lemma cex_sel1 : selectNearest 0 0 [cexStopB, cexStopA]
    = some (cexStopA, calculate_distance 0 0 0 8) := by
  unfold selectNearest
  rw [List.foldl_cons, List.foldl_cons, List.foldl_nil]
  have e1 : selectStep 0 0 none cexStopB = some (cexStopB, calculate_distance 0 0 0 10) := by
    unfold selectStep rawDistance
    simp [cexStopB]
  rw [e1]
  have hcond : adjScore 0 0 cexStopA < calculate_distance 0 0 0 10 := by
    rw [cex_adjA, dist_0_10]
    have hpi := Real.pi_pos
    nlinarith
  unfold selectStep
  dsimp only
  rw [if_pos hcond]
  unfold rawDistance
  simp [cexStopA]

lemma cex_BneA : cexStopB ≠ cexStopA := by
  unfold cexStopB cexStopA
  simp

lemma cex_erase1 : ([cexStopB, cexStopA] : List DeliveryStop).erase cexStopA = [cexStopB] := by
  rw [List.erase_cons, if_neg (by simpa using cex_BneA), List.erase_cons_head]

lemma cex_sel2 : selectNearest cexStopA.latitude cexStopA.longitude [cexStopB]
    = some (cexStopB, calculate_distance 0 8 0 10) := by
  unfold selectNearest
  rw [List.foldl_cons, List.foldl_nil]
  unfold selectStep rawDistance
  simp [cexStopA, cexStopB]

lemma cex_routeLoop : routeLoop 0 0 [cexStopB, cexStopA] [] 0
    = ([cexStopA, cexStopB],
       calculate_distance 0 0 0 8 + calculate_distance 0 8 0 10) := by
  rw [routeLoop_some cex_sel1, cex_erase1, routeLoop_some cex_sel2,
    List.erase_cons_head, routeLoop_none (selectNearest_nil _ _)]
  simp

/-- C1 counterexample: scanned in the order `[B, A]` with B at (0,10)
priority 5 and A at (0,8) priority 1 from a vehicle at the origin, stop B
has the strictly smaller adjusted score (≈667 km vs ≈890 km raw for A),
yet the loop visits A first: the comparison at app.py line 97 measures the
candidate's adjusted score against the incumbent's stored RAW distance
(line 98), so the chosen stop is NOT the adjusted-score minimum. -/
theorem scan_picks_non_minimal_adjusted :
    adjScore 0 0 cexStopB < adjScore 0 0 cexStopA ∧
    (optimize_route [cexStopB, cexStopA] scenVehicle).route = [cexStopA, cexStopB] := by
  constructor
  · rw [cex_adjA, cex_adjB]
    have hpi := Real.pi_pos
    nlinarith
  · have hne : ([cexStopB, cexStopA] : List DeliveryStop) ≠ [] := by simp
    simp only [optimize_route, if_neg hne, scenVehicle, cex_routeLoop]

/-- A delivery stop located exactly at the origin (priority 3, the request
default), used to build runs in which every stop is reachable. -/
noncomputable def dupStop : DeliveryStop := ⟨"dup", "D", 0, 0, 3, "09:00", "17:00", 15⟩

/-- A healthy vehicle at the origin. -/
noncomputable def originVehicle : Vehicle := ⟨"veh-o", "Hana", 1000, 0, 0, 50, 60⟩

lemma dup_raw : rawDistance 0 0 dupStop = 0 := by
  have h := calculate_distance_self 0 0
  simp only [rawDistance, dupStop]
  exact h

lemma dup_adj : adjScore 0 0 dupStop = 0 := by
  rw [adjScore, dup_raw, zero_mul]

lemma selectNearest_dup (n : ℕ) :
    selectNearest 0 0 (List.replicate (n + 1) dupStop) = some (dupStop, 0) := by
  unfold selectNearest
  rw [List.replicate_succ, List.foldl_cons]
  have e0 : selectStep 0 0 none dupStop = some (dupStop, 0) := by
    unfold selectStep
    rw [dup_raw]
  rw [e0]
  induction n with
  | zero => rfl
  | succ m ih =>
    rw [List.replicate_succ, List.foldl_cons]
    have e1 : selectStep 0 0 (some (dupStop, 0)) dupStop = some (dupStop, 0) := by
      unfold selectStep
      dsimp only
      rw [if_neg (by rw [dup_adj]; exact lt_irrefl 0)]
    rw [e1]
    exact ih

lemma routeLoop_dup : ∀ (n : ℕ) (route : List DeliveryStop) (total : ℝ),
    routeLoop 0 0 (List.replicate n dupStop) route total
      = (route ++ List.replicate n dupStop, total) := by
  intro n
  induction n with
  | zero =>
    intro route total
    rw [List.replicate_zero, routeLoop_none (selectNearest_nil 0 0)]
    simp
  | succ m ih =>
    intro route total
    rw [routeLoop_some (selectNearest_dup m)]
    have herase : (List.replicate (m + 1) dupStop).erase dupStop
        = List.replicate m dupStop := by
      rw [List.replicate_succ, List.erase_cons_head]
    rw [show dupStop.latitude = (0 : ℝ) from rfl,
      show dupStop.longitude = (0 : ℝ) from rfl, herase, ih]
    rw [List.replicate_succ]
    simp

lemma near_dup : calculate_distance originVehicle.current_lat originVehicle.current_lon
    dupStop.latitude dupStop.longitude < 50 := by
  have h0 : calculate_distance originVehicle.current_lat originVehicle.current_lon
      dupStop.latitude dupStop.longitude = 0 := calculate_distance_self 0 0
  rw [h0]
  norm_num

lemma nearFilter_dup (n : ℕ) : nearFilter originVehicle (List.replicate n dupStop)
    = List.replicate n dupStop := by
  unfold nearFilter
  apply List.filter_eq_self.mpr
  intro a ha
  rw [List.eq_of_mem_replicate ha]
  exact decide_eq_true near_dup

lemma collectSuitable_dup6 : collectSuitable originVehicle (List.replicate 6 dupStop)
    = List.replicate 5 dupStop := by
  rw [collectSuitable_eq, nearFilter_dup, List.take_replicate]
  norm_num

lemma collectSuitable_dup1 : collectSuitable originVehicle [dupStop] = [dupStop] := by
  rw [collectSuitable_eq, show ([dupStop] : List DeliveryStop) = List.replicate 1 dupStop from rfl,
    nearFilter_dup, List.take_replicate]
  norm_num

lemma optimize_dup_route (n : ℕ) :
    (optimize_route (List.replicate (n + 1) dupStop) originVehicle).route
      = List.replicate (n + 1) dupStop := by
  have hne : (List.replicate (n + 1) dupStop : List DeliveryStop) ≠ [] := by simp
  simp only [optimize_route, if_neg hne]
  rw [show originVehicle.current_lat = (0 : ℝ) from rfl,
    show originVehicle.current_lon = (0 : ℝ) from rfl, routeLoop_dup (n + 1) [] 0]
  simp

lemma removeAll_dup_general : ∀ (k n : ℕ),
    removeAll (List.replicate (n + k) dupStop) (List.replicate k dupStop)
      = List.replicate n dupStop := by
  intro k
  induction k with
  | zero => intro n; rfl
  | succ m ih =>
    intro n
    unfold removeAll
    rw [List.replicate_succ, List.foldl_cons]
    have he : (List.replicate (n + (m + 1)) dupStop).erase dupStop
        = List.replicate (n + m) dupStop := by
      rw [show n + (m + 1) = (n + m) + 1 by omega, List.replicate_succ,
        List.erase_cons_head]
    rw [he]
    exact ih n

lemma removeAll_dup6 : removeAll (List.replicate 6 dupStop) (List.replicate 5 dupStop)
    = [dupStop] := by
  simpa using removeAll_dup_general 5 1

lemma optimize_dup1_route : (optimize_route [dupStop] originVehicle).route = [dupStop] := by
  have h := optimize_dup_route 0
  rw [show (0 + 1) = 1 from rfl, List.replicate_one] at h
  exact h

lemma originVehicle_max_fuel : ¬ originVehicle.max_fuel = 0 := by
  show ¬ (60 : ℝ) = 0
  norm_num

lemma originVehicle_guard :
    ([originVehicle].any (fun v => decide (v.max_fuel = 0))) = false := by
  simp only [List.any_cons, List.any_nil, Bool.or_false]
  exact decide_eq_false originVehicle_max_fuel

lemma two_originVehicle_guard :
    ([originVehicle, originVehicle].any (fun v => decide (v.max_fuel = 0))) = false := by
  simp only [List.any_cons, List.any_nil, Bool.or_false]
  rw [decide_eq_false originVehicle_max_fuel]
  rfl

lemma sort_one_origin : sortByFuelDesc [originVehicle] = [originVehicle] := rfl

lemma sort_two_origin :
    sortByFuelDesc [originVehicle, originVehicle] = [originVehicle, originVehicle] := by
  show insertByFuel originVehicle (insertByFuel originVehicle []) = _
  rw [show insertByFuel originVehicle [] = [originVehicle] from rfl]
  unfold insertByFuel
  rw [if_pos le_rfl]

lemma assignLoop_dup6 :
    assignLoop [originVehicle] (List.replicate 6 dupStop) []
      = ([(originVehicle.id, optimize_route (List.replicate 5 dupStop) originVehicle)],
         [dupStop]) := by
  conv_lhs => rw [assignLoop.eq_def]
  dsimp only
  rw [if_neg (by simp), collectSuitable_dup6, if_neg (by simp), removeAll_dup6]
  have hd1 : dictInsert [] originVehicle.id
      (optimize_route (List.replicate 5 dupStop) originVehicle)
      = [(originVehicle.id, optimize_route (List.replicate 5 dupStop) originVehicle)] := by
    simp [dictInsert]
  rw [hd1]
  rfl

lemma assignLoop_dup6_two :
    assignLoop [originVehicle, originVehicle] (List.replicate 6 dupStop) []
      = ([(originVehicle.id, optimize_route [dupStop] originVehicle)], []) := by
  conv_lhs => rw [assignLoop.eq_def]
  dsimp only
  rw [if_neg (by simp), collectSuitable_dup6, if_neg (by simp), removeAll_dup6]
  have hd1 : dictInsert [] originVehicle.id
      (optimize_route (List.replicate 5 dupStop) originVehicle)
      = [(originVehicle.id, optimize_route (List.replicate 5 dupStop) originVehicle)] := by
    simp [dictInsert]
  rw [hd1]
  conv_lhs => rw [assignLoop.eq_def]
  dsimp only
  rw [if_neg (by simp), collectSuitable_dup1, if_neg (by simp)]
  have hrm : removeAll [dupStop] [dupStop] = [] := by
    unfold removeAll
    rw [List.foldl_cons, List.erase_cons_head]
    rfl
  have hd2 : dictInsert
      [(originVehicle.id, optimize_route (List.replicate 5 dupStop) originVehicle)]
      originVehicle.id (optimize_route [dupStop] originVehicle)
      = [(originVehicle.id, optimize_route [dupStop] originVehicle)] := by
    unfold dictInsert
    rw [if_pos (by simp)]
    simp
  rw [hrm, hd2]
  rfl

lemma assign_dup6_one_eval :
    assign_routes (List.replicate 6 dupStop) [originVehicle] = Except.ok
      { assignments :=
          [(originVehicle.id, optimize_route (List.replicate 5 dupStop) originVehicle)]
        unassigned_deliveries := [dupStop]
        total_vehicles_used := 1
        total_deliveries_assigned := 5 } := by
  unfold assign_routes
  rw [if_neg (by rw [originVehicle_guard]; simp), sort_one_origin, assignLoop_dup6]
  simp

lemma assign_dup6_two_eval :
    assign_routes (List.replicate 6 dupStop) [originVehicle, originVehicle] = Except.ok
      { assignments := [(originVehicle.id, optimize_route [dupStop] originVehicle)]
        unassigned_deliveries := []
        total_vehicles_used := 1
        total_deliveries_assigned := 6 } := by
  unfold assign_routes
  rw [if_neg (by rw [two_originVehicle_guard]; simp), sort_two_origin, assignLoop_dup6_two]
  simp

/-- C2 counterexample.  Part one: six identical submitted stops and one
vehicle — the stop value is BOTH assigned (five copies routed) and
unassigned (the sixth copy), so the assigned and unassigned sets are not
disjoint.  Part two: the same six stops and two vehicles sharing one id —
the dict entry of the first vehicle is overwritten by the second, five
routed stops vanish from the result, and the union of assigned and
unassigned stops is no longer a permutation of the submitted deliveries. -/
theorem assign_routes_sets_can_overlap :
    (∃ r, assign_routes (List.replicate 6 dupStop) [originVehicle] = Except.ok r ∧
      dupStop ∈ assignedStops r.assignments ∧
      dupStop ∈ r.unassigned_deliveries) ∧
    (∃ r, assign_routes (List.replicate 6 dupStop) [originVehicle, originVehicle]
        = Except.ok r ∧
      ¬ (assignedStops r.assignments ++ r.unassigned_deliveries).Perm
        (List.replicate 6 dupStop)) := by
  constructor
  · refine ⟨_, assign_dup6_one_eval, ?_, by simp⟩
    unfold assignedStops
    simp only [List.flatMap_cons, List.flatMap_nil, List.append_nil]
    rw [show (5 : ℕ) = 4 + 1 from rfl, optimize_dup_route 4]
    simp
  · refine ⟨_, assign_dup6_two_eval, ?_⟩
    intro hperm
    have hlen := hperm.length_eq
    unfold assignedStops at hlen
    simp only [List.flatMap_cons, List.flatMap_nil, List.append_nil] at hlen
    rw [optimize_dup1_route] at hlen
    simp at hlen

lemma assign_one_eval :
    assign_routes [dupStop] [originVehicle] = Except.ok
      { assignments := [(originVehicle.id, optimize_route [dupStop] originVehicle)]
        unassigned_deliveries := []
        total_vehicles_used := 1
        total_deliveries_assigned := 1 } := by
  unfold assign_routes
  rw [if_neg (by rw [originVehicle_guard]; simp), sort_one_origin]
  have hloop : assignLoop [originVehicle] [dupStop] []
      = ([(originVehicle.id, optimize_route [dupStop] originVehicle)], []) := by
    conv_lhs => rw [assignLoop.eq_def]
    dsimp only
    rw [if_neg (by simp), collectSuitable_dup1, if_neg (by simp)]
    have hrm : removeAll [dupStop] [dupStop] = [] := by
      unfold removeAll
      rw [List.foldl_cons, List.erase_cons_head]
      rfl
    have hd1 : dictInsert [] originVehicle.id (optimize_route [dupStop] originVehicle)
        = [(originVehicle.id, optimize_route [dupStop] originVehicle)] := by
      simp [dictInsert]
    rw [hrm, hd1]
    rfl
  rw [hloop]
  simp

/-! ## Scenario B (C4) -/

lemma dist_0_1 : calculate_distance 0 0 0 1 = 6371 * (1 * Real.pi / 180) := by
  simpa using calculate_distance_equator 0 1 (by norm_num) (by norm_num)

lemma dist_0_2 : calculate_distance 0 0 0 2 = 6371 * (2 * Real.pi / 180) := by
  simpa using calculate_distance_equator 0 2 (by norm_num) (by norm_num)

lemma scen_far1 : 50 ≤ calculate_distance scenVehicle.current_lat
    scenVehicle.current_lon scenStop1.latitude scenStop1.longitude := by
  have h : calculate_distance scenVehicle.current_lat scenVehicle.current_lon
      scenStop1.latitude scenStop1.longitude = 6371 * (1 * Real.pi / 180) := dist_0_1
  rw [h]
  have h3 := Real.pi_gt_three
  nlinarith

lemma scen_far2 : 50 ≤ calculate_distance scenVehicle.current_lat
    scenVehicle.current_lon scenStop2.latitude scenStop2.longitude := by
  have h : calculate_distance scenVehicle.current_lat scenVehicle.current_lon
      scenStop2.latitude scenStop2.longitude = 6371 * (2 * Real.pi / 180) := dist_0_2
  rw [h]
  have h3 := Real.pi_gt_three
  nlinarith

lemma scen_nearFilter : nearFilter scenVehicle [scenStop1, scenStop2] = [] := by
  unfold nearFilter
  rw [List.filter_cons_of_neg, List.filter_cons_of_neg, List.filter_nil]
  · simp only [decide_eq_true_eq]
    exact not_lt.mpr scen_far2
  · simp only [decide_eq_true_eq]
    exact not_lt.mpr scen_far1

lemma scen_eval :
    assign_routes [scenStop1, scenStop2] [scenVehicle] = Except.ok
      { assignments := []
        unassigned_deliveries := [scenStop1, scenStop2]
        total_vehicles_used := 0
        total_deliveries_assigned := 0 } := by
  have hguard : ([scenVehicle].any (fun v => decide (v.max_fuel = 0))) = false := by
    simp only [List.any_cons, List.any_nil, Bool.or_false]
    exact decide_eq_false (by norm_num [scenVehicle])
  have hsuit : collectSuitable scenVehicle [scenStop1, scenStop2] = [] := by
    rw [collectSuitable_eq, scen_nearFilter]
    rfl
  have hloop : assignLoop [scenVehicle] [scenStop1, scenStop2] []
      = ([], [scenStop1, scenStop2]) := by
    conv_lhs => rw [assignLoop.eq_def]
    dsimp only
    rw [if_neg (by simp), if_pos hsuit]
    rfl
  unfold assign_routes
  rw [if_neg (by rw [hguard]; simp), show sortByFuelDesc [scenVehicle] = [scenVehicle] from rfl,
    hloop]
  simp

/-- C4 counterexample: on the Scenario B input — one vehicle at (0,0) with
fuel 50/60 and deliveries at (0,1) and (0,2) — NOTHING is assigned: one
degree of longitude on the equator is ≈111 km, beyond the 50 km filter, so
`assign_routes` returns an empty assignment dict and both deliveries
unassigned, contradicting the claim that both are assigned. -/
theorem scenarioB_nothing_assigned :
    ∃ r, assign_routes [scenStop1, scenStop2] [scenVehicle] = Except.ok r ∧
      r.assignments = [] ∧ r.unassigned_deliveries = [scenStop1, scenStop2] := by
  exact ⟨_, scen_eval, rfl, rfl⟩

/-- C4 as amended: on the Scenario B input both deliveries lie at least
50 km from the vehicle (≈111 km and ≈222 km), so the run completes with no
vehicle used and both deliveries returned unassigned, in submission order. -/
theorem scenarioB_behaviour :
    50 ≤ calculate_distance scenVehicle.current_lat scenVehicle.current_lon
      scenStop1.latitude scenStop1.longitude ∧
    50 ≤ calculate_distance scenVehicle.current_lat scenVehicle.current_lon
      scenStop2.latitude scenStop2.longitude ∧
    ∃ r, assign_routes [scenStop1, scenStop2] [scenVehicle] = Except.ok r ∧
      r.assignments = [] ∧ r.unassigned_deliveries = [scenStop1, scenStop2] ∧
      r.total_vehicles_used = 0 ∧ r.total_deliveries_assigned = 0 :=
  ⟨scen_far1, scen_far2, _, scen_eval, rfl, rfl, rfl, rfl⟩

/-! ## Ledger scenarios (C5) -/

/-- A run record with efficiency score 0.5. -/
noncomputable def run05 : OptimizationRun := ⟨"run-half", 2, 1, 1, 0.5⟩

/-- A run record with efficiency score 0.9. -/
noncomputable def run09 : OptimizationRun := ⟨"run-nine", 10, 1, 9, 0.9⟩

lemma run05_score : run05.efficiency_score = 0.5 := rfl

/-- C5 counterexample: with EXACTLY five recorded runs at efficiency 0.5 the
recommendation list is empty — no `efficiency_improvement` entry at all —
because the source requires STRICTLY more than five history entries (app.py
line 231), contradicting the claim that one such entry is present. -/
theorem five_runs_no_efficiency_entry :
    get_optimization_recommendations [] (List.replicate 5 run05) = [] := by
  unfold get_optimization_recommendations
  rw [if_neg (by simp)]
  unfold efficiencyRecommendation
  rw [if_neg (by simp)]
  simp

/-- C5 as amended: the ledger-derived entry needs strictly more than five
records.  With six runs at 0.5 (recent-five mean 0.5 < 0.7) exactly one
`efficiency_improvement` entry is emitted; with five runs at 0.9 none is. -/
theorem efficiency_entry_thresholds :
    (get_optimization_recommendations [] (List.replicate 6 run05)).map
      Recommendation.rtype = ["efficiency_improvement"] ∧
    get_optimization_recommendations [] (List.replicate 5 run09) = [] := by
  constructor
  · unfold get_optimization_recommendations
    rw [if_neg (by simp)]
    unfold efficiencyRecommendation
    rw [if_pos (by simp)]
    have havg : avgEfficiency (List.replicate 6 run05) < 0.7 := by
      unfold avgEfficiency recentFive
      simp only [List.length_replicate, List.drop_replicate, List.map_replicate,
        List.sum_replicate, nsmul_eq_mul, run05_score]
      norm_num
    rw [if_pos havg]
    simp
  · unfold get_optimization_recommendations
    rw [if_neg (by simp)]
    unfold efficiencyRecommendation
    rw [if_neg (by simp)]
    simp

/-! ## Failed-run ledger behaviour (C6) -/

/-- A vehicle whose `max_fuel` is 0: the sort key of `assign_routes`
divides by it, so assignment fails with the caught `ZeroDivisionError`. -/
noncomputable def zeroCapVehicle : Vehicle := ⟨"veh-z", "Ivo", 1000, 0, 0, 50, 0⟩

lemma assign_zeroCap_error :
    assign_routes [dupStop] [zeroCapVehicle]
      = Except.error ("float division by zero") := by
  have hc : ([zeroCapVehicle].any (fun v => decide (v.max_fuel = 0))) = true := by
    simp only [List.any_cons, List.any_nil, Bool.or_false]
    exact decide_eq_true rfl
  unfold assign_routes
  rw [if_pos hc]

/-- C6 counterexample: submitting a vehicle with `max_fuel = 0` makes
`assign_routes` fail with its caught division error — yet /optimize still
appends a history record, so an internally failed assignment does NOT leave
the optimization history unchanged. -/
theorem failed_run_still_appends :
    (∃ e, assign_routes [dupStop] [zeroCapVehicle] = Except.error e) ∧
    (optimize_routes_step initState [dupStop]
      [zeroCapVehicle]).1.optimization_history.length
      = initState.optimization_history.length + 1 := by
  refine ⟨⟨_, assign_zeroCap_error⟩, ?_⟩
  simp [optimize_routes_step, initState]

/-- C7 counterexample: a vehicle with `max_fuel = 0` — directly submittable
through the /fuel-efficiency endpoint — makes `calculate_fuel_efficiency`
return its caught `ZeroDivisionError` dictionary (the `fuel_percentage`
field divides by `max_fuel`) instead of the claimed consumption/deficit
record, so the claim's "for every vehicle" fails. -/
theorem fuel_efficiency_zero_capacity_errors :
    calculate_fuel_efficiency zeroCapVehicle 100
      = Except.error ("float division by zero") := by
  unfold calculate_fuel_efficiency
  rw [if_pos (show zeroCapVehicle.max_fuel = 0 from rfl)]

/-- Vehicle at fuel ratio 10 percent. -/
noncomputable def vAlert : Vehicle := ⟨"v-a", "Dana", 1000, 0, 0, 10, 100⟩

/-- C8 counterexample: a fleet holding the ratio-10 vehicle `vAlert`
TOGETHER with one zero-capacity vehicle produces NO recommendations at all —
the `ZeroDivisionError` raised inside the loop is caught by the blanket
`except`, which returns the empty list — so `vAlert` gets no `fuel_alert`
even though its fuel ratio is below 20, falsifying the claimed per-vehicle
iff over arbitrary fleet states. -/
theorem zero_capacity_fleet_silences_alerts :
    vAlert.fuel_level / vAlert.max_fuel * 100 < 20 ∧
    vAlert ∈ [vAlert, zeroCapVehicle] ∧
    get_optimization_recommendations [vAlert, zeroCapVehicle] [] = [] := by
  refine ⟨?_, by simp, ?_⟩
  · show (10 : ℝ) / 100 * 100 < 20
    norm_num
  · have hg : ([vAlert, zeroCapVehicle].any (fun v => decide (v.max_fuel = 0)))
        = true := by
      simp only [List.any_cons, List.any_nil, Bool.or_false]
      rw [decide_eq_true (show zeroCapVehicle.max_fuel = 0 from rfl)]
      simp
    unfold get_optimization_recommendations
    rw [if_pos hg]

/-! ## Witnesses -/

/-- Witness: the amended C1 characterisation applied to the concrete
two-stop input. -/
theorem optimize_route_scan_characterisation_witness :
    (optimize_route [cexStopB, cexStopA] scenVehicle).route.Perm
      [cexStopB, cexStopA] ∧
    (optimize_route [cexStopB, cexStopA] scenVehicle).total_distance =
      pathDistance scenVehicle.current_lat scenVehicle.current_lon
        (optimize_route [cexStopB, cexStopA] scenVehicle).route ∧
    ∀ s d, selectNearest scenVehicle.current_lat scenVehicle.current_lon
        [cexStopB, cexStopA] = some (s, d) →
      (optimize_route [cexStopB, cexStopA] scenVehicle).route.head? = some s ∧
      d = rawDistance scenVehicle.current_lat scenVehicle.current_lon s ∧
      ∃ l₁ l₂, [cexStopB, cexStopA] = l₁ ++ s :: l₂ ∧
        ∀ t ∈ l₂, d ≤ adjScore scenVehicle.current_lat scenVehicle.current_lon t :=
  optimize_route_scan_characterisation [cexStopB, cexStopA] scenVehicle (by simp)

/-- Witness: the amended C2 partition applied to a concrete duplicate-free
run of one delivery and one vehicle. -/
theorem assign_routes_partition_witness :
    (assignedStops [(originVehicle.id, optimize_route [dupStop] originVehicle)] ++
      ([] : List DeliveryStop)).Perm [dupStop] ∧
    (∀ s ∈ assignedStops
        [(originVehicle.id, optimize_route [dupStop] originVehicle)],
      s ∉ ([] : List DeliveryStop)) ∧
    List.Pairwise (fun p q => ∀ s ∈ p.2.route, s ∉ q.2.route)
      [(originVehicle.id, optimize_route [dupStop] originVehicle)] := by
  have h := assign_routes_partition [dupStop] [originVehicle] _ (by simp) (by simp)
    assign_one_eval
  simpa using h

/-- Witness: the C3 selection property applied to the same concrete run. -/
theorem assign_routes_candidate_selection_witness :
    (optimize_route [dupStop] originVehicle).route.length ≤ 5 ∧
    ∃ i v, (sortByFuelDesc [originVehicle]).get? i = some v ∧ v ∈ [originVehicle] ∧
      v.id = originVehicle.id ∧
      (poolAfter ((sortByFuelDesc [originVehicle]).take i) [dupStop]).Sublist [dupStop] ∧
      optimize_route [dupStop] originVehicle = optimize_route
        ((nearFilter v
          (poolAfter ((sortByFuelDesc [originVehicle]).take i) [dupStop])).take 5) v ∧
      ∀ s ∈ (optimize_route [dupStop] originVehicle).route,
        calculate_distance v.current_lat v.current_lon s.latitude s.longitude < 50 := by
  have h := assign_routes_candidate_selection [dupStop] [originVehicle] _ assign_one_eval
    (originVehicle.id, optimize_route [dupStop] originVehicle) (by simp)
  simpa using h

/-- Witness: the C6 equation and failure clause at the concrete failing
input. -/
theorem optimize_always_appends_witness :
    ((optimize_routes_step initState [dupStop] [zeroCapVehicle]).1.optimization_history =
      initState.optimization_history ++
        [mkOptimizationRecord ([dupStop] : List DeliveryStop).length
          ([zeroCapVehicle] : List Vehicle).length
          (assign_routes [dupStop] [zeroCapVehicle])]) ∧
    (mkOptimizationRecord ([dupStop] : List DeliveryStop).length
        ([zeroCapVehicle] : List Vehicle).length
        (assign_routes [dupStop] [zeroCapVehicle])).assignments_made = 0 ∧
    (mkOptimizationRecord ([dupStop] : List DeliveryStop).length
        ([zeroCapVehicle] : List Vehicle).length
        (assign_routes [dupStop] [zeroCapVehicle])).efficiency_score = 0 := by
  have h := optimize_always_appends initState [dupStop] [zeroCapVehicle]
  exact ⟨h.1, h.2 _ assign_zeroCap_error⟩

/-- A healthy vehicle used by the C7 witness. -/
noncomputable def fuelVehicle : Vehicle := ⟨"truck-7", "Noa", 1000, 0, 0, 50, 60⟩

/-- Witness: the C7 fuel-feasibility properties at a concrete vehicle and
route distance. -/
theorem calculate_fuel_efficiency_spec_witness :
    ∃ f, calculate_fuel_efficiency fuelVehicle 100 = Except.ok f ∧
      f.estimated_fuel_consumption = 100 * 0.08 ∧
      f.fuel_deficit = max 0 (100 * 0.08 - fuelVehicle.fuel_level) ∧
      (f.needs_refuel = true ↔ 5 < f.fuel_deficit) ∧
      ∀ d' f', (100 : ℝ) ≤ d' →
        calculate_fuel_efficiency fuelVehicle d' = Except.ok f' →
        f.fuel_deficit ≤ f'.fuel_deficit :=
  calculate_fuel_efficiency_spec fuelVehicle 100 (by norm_num)
    (by show ¬ (60 : ℝ) = 0; norm_num)

/-- Vehicle at fuel ratio 30 percent. -/
noncomputable def vWarn : Vehicle := ⟨"v-b", "Eli", 1000, 0, 0, 30, 100⟩

/-- Vehicle at fuel ratio 50 percent. -/
noncomputable def vOk : Vehicle := ⟨"v-c", "Fay", 1000, 0, 0, 50, 100⟩

/-- Witness: the C8 threshold battery on a concrete three-vehicle fleet. -/
theorem recommendations_fuel_thresholds_witness :
    (∃ tail, get_optimization_recommendations [vAlert, vWarn, vOk] [] =
        [vAlert, vWarn, vOk].flatMap vehicleRecommendation ++ tail ∧
        ∀ rc ∈ tail, rc.rtype = "efficiency_improvement") ∧
    ∀ v ∈ [vAlert, vWarn, vOk],
      ((vehicleRecommendation v).map Recommendation.rtype = ["fuel_alert"] ↔
        v.fuel_level / v.max_fuel * 100 < 20) ∧
      ((vehicleRecommendation v).map Recommendation.rtype = ["fuel_warning"] ↔
        20 ≤ v.fuel_level / v.max_fuel * 100 ∧
          v.fuel_level / v.max_fuel * 100 < 40) ∧
      ((vehicleRecommendation v).map Recommendation.rtype = [] ↔
        40 ≤ v.fuel_level / v.max_fuel * 100) := by
  apply recommendations_fuel_thresholds
  intro v hv
  have h100 : ∀ w : Vehicle, w.max_fuel = 100 → w.max_fuel ≠ 0 := by
    intro w hw
    rw [hw]
    norm_num
  fin_cases hv
  · exact h100 _ rfl
  · exact h100 _ rfl
  · exact h100 _ rfl

end FleetOpt
